import Mathlib

/-!
Verification of the client-side gRPC metrics instrumentation layer
(the openmetrics client interceptors).  The repository sources shown contain
only the test suite (`providers/openmetrics/client_test.go`), so the data
model and the operations of the instrumentation core are modelled from the
specification (spec.md) and checked against the behaviour the tests rely on.
-/

/-- A terminal status code of a call, as its label string
(for example "OK" or "FailedPrecondition"). -/
abbrev StatusCode := String

/-- Modelled from the spec: the four call shapes the Call Classifier
distinguishes (spec section 3, CallType). -/
inductive CallType
  | unary
  | clientStream
  | serverStream
  | bidiStream
deriving DecidableEq

/-- The label string of a call type, as it appears in the metric label schema. -/
def CallType.label : CallType → String
  | .unary => "unary"
  | .clientStream => "client_stream"
  | .serverStream => "server_stream"
  | .bidiStream => "bidi_stream"

/-- Modelled from the spec: CallLabels, the label tuple
type times service times method (spec section 3). -/
structure CallLabels where
  callType : CallType
  service : String
  method : String
deriving DecidableEq

/-- Modelled from the spec: the classification of the declared streaming
shape, request cardinality times response cardinality (spec sections 3, 4.1). -/
def clientStreamType (clientStreams serverStreams : Bool) : CallType :=
  match clientStreams, serverStreams with
  | false, false => .unary
  | true, false => .clientStream
  | false, true => .serverStream
  | true, true => .bidiStream

/-- Modelled from the spec: the Call Classifier splits the fully qualified
method identifier (conventionally "/package.Service/Method") into service and
method components on the service/method delimiter; a malformed identifier
(missing delimiter) yields empty components rather than failing
(spec section 4.1).  The leading delimiter is stripped first, then the
identifier is split at the first remaining delimiter. -/
def splitMethodName (fullMethod : String) : String × String :=
  let chars : List Char :=
    match fullMethod.data with
    | [] => []
    | c :: rest => if c = '/' then rest else c :: rest
  if '/' ∈ chars then
    (String.mk (chars.takeWhile (fun c => !(c == '/'))),
     String.mk ((chars.dropWhile (fun c => !(c == '/'))).tail))
  else
    ("", "")

/-- Modelled from the spec: the Metric Registry Adapter state, the five
label-keyed client metric families plus the opt-in flag of the
handling-time histogram (spec sections 3 and 4.2).  A histogram is modelled
by its per-label observation count, which is what the claims speak about. -/
structure ClientMetrics where
  handlingTimeHistogramEnabled : Bool
  clientStartedCounter : CallLabels → Nat
  clientHandledCounter : CallLabels → StatusCode → Nat
  clientHandledHistogram : CallLabels → Nat
  clientStreamMsgReceived : CallLabels → Nat
  clientStreamMsgSent : CallLabels → Nat

/-- Modelled from the spec: a freshly constructed registry has every counter
at zero and histogram collection disabled (opt-in, spec section 3). -/
def NewClientMetrics : ClientMetrics where
  handlingTimeHistogramEnabled := false
  clientStartedCounter := fun _ => 0
  clientHandledCounter := fun _ _ => 0
  clientHandledHistogram := fun _ => 0
  clientStreamMsgReceived := fun _ => 0
  clientStreamMsgSent := fun _ => 0

/-- Modelled from the spec: enabling the latency histogram is an explicit,
idempotent one-time operation (spec section 4.2). -/
def ClientMetrics.enableClientHandlingTimeHistogram (m : ClientMetrics) : ClientMetrics :=
  { m with handlingTimeHistogramEnabled := true }

/-- Modelled from the spec: incStarted of the Metric Registry Adapter. -/
def incStarted (m : ClientMetrics) (lbl : CallLabels) : ClientMetrics :=
  { m with clientStartedCounter := fun l =>
      if l = lbl then m.clientStartedCounter l + 1 else m.clientStartedCounter l }

/-- Modelled from the spec: incHandled of the Metric Registry Adapter, keyed
by CallLabels plus the terminal status code. -/
def incHandled (m : ClientMetrics) (lbl : CallLabels) (code : StatusCode) : ClientMetrics :=
  { m with clientHandledCounter := fun l c =>
      if l = lbl ∧ c = code then m.clientHandledCounter l c + 1
      else m.clientHandledCounter l c }

/-- Modelled from the spec: observeHandledDuration of the Metric Registry
Adapter; a no-op unless histogram collection is enabled (spec section 4.2). -/
def observeHandledDuration (m : ClientMetrics) (lbl : CallLabels) : ClientMetrics :=
  if m.handlingTimeHistogramEnabled then
    { m with clientHandledHistogram := fun l =>
        if l = lbl then m.clientHandledHistogram l + 1 else m.clientHandledHistogram l }
  else m

/-- Modelled from the spec: incMsgSent of the Metric Registry Adapter. -/
def incMsgSent (m : ClientMetrics) (lbl : CallLabels) : ClientMetrics :=
  { m with clientStreamMsgSent := fun l =>
      if l = lbl then m.clientStreamMsgSent l + 1 else m.clientStreamMsgSent l }

/-- Modelled from the spec: incMsgReceived of the Metric Registry Adapter. -/
def incMsgReceived (m : ClientMetrics) (lbl : CallLabels) : ClientMetrics :=
  { m with clientStreamMsgReceived := fun l =>
      if l = lbl then m.clientStreamMsgReceived l + 1 else m.clientStreamMsgReceived l }

/-- One metric operation emitted by the instrumentation layer in the course
of a call; a call's behaviour is its ordered list of these operations. -/
inductive MetricOp
  | started
  | msgSent
  | msgReceived
  | handled (code : StatusCode)
  | observeDuration
deriving DecidableEq

/-- Interpreting one metric operation on the registry, at the call's labels. -/
def applyOp (lbl : CallLabels) (m : ClientMetrics) : MetricOp → ClientMetrics
  | .started => incStarted m lbl
  | .msgSent => incMsgSent m lbl
  | .msgReceived => incMsgReceived m lbl
  | .handled code => incHandled m lbl code
  | .observeDuration => observeHandledDuration m lbl

/-- Interpreting a sequence of metric operations on the registry, in order. -/
def applyOps (lbl : CallLabels) (m : ClientMetrics) (ops : List MetricOp) : ClientMetrics :=
  ops.foldl (applyOp lbl) m

def MetricOp.isStarted : MetricOp → Bool
  | .started => true
  | _ => false

def MetricOp.isMsgSent : MetricOp → Bool
  | .msgSent => true
  | _ => false

def MetricOp.isMsgReceived : MetricOp → Bool
  | .msgReceived => true
  | _ => false

def MetricOp.isHandled : MetricOp → Bool
  | .handled _ => true
  | _ => false

def MetricOp.isHandledWith (code : StatusCode) : MetricOp → Bool
  | .handled c => c == code
  | _ => false

def MetricOp.isObserve : MetricOp → Bool
  | .observeDuration => true
  | _ => false

/-- Modelled from the spec: what one receive on the underlying stream
surfaces — a successful message, the normal end-of-stream signal, or an
error carrying a status code (spec section 4.4). -/
inductive RecvEvent
  | msg
  | eof
  | recvError (code : StatusCode)
deriving DecidableEq

/-- Whether a receive outcome is a terminal signal (end-of-stream or error). -/
def RecvEvent.isTerminal : RecvEvent → Bool
  | .msg => false
  | .eof => true
  | .recvError _ => true

/-- The status code a terminal receive outcome closes the stream with:
"OK" for the normal end-of-stream signal, the error's code otherwise. -/
def RecvEvent.terminalCode : RecvEvent → StatusCode
  | .msg => "OK"
  | .eof => "OK"
  | .recvError c => c

/-- Modelled from the spec: what one send on the underlying stream
surfaces — success, or a failure carrying a status code (spec section 4.4). -/
inductive SendResult
  | sendOk
  | sendError (code : StatusCode)
deriving DecidableEq

/-- Whether a send outcome is a failure carrying a status code. -/
def SendResult.isFailure : SendResult → Bool
  | .sendOk => false
  | .sendError _ => true

/-- Modelled from the spec: the outcome of the underlying unary call
invocation, success or an error carrying a status code (spec section 4.3). -/
inductive CallResult
  | callOk
  | callError (code : StatusCode)
deriving DecidableEq

/-- The status code recorded for a unary outcome. -/
def CallResult.statusCode : CallResult → StatusCode
  | .callOk => "OK"
  | .callError c => c

/-- Modelled from the spec: the per-call Call Record of a wrapped stream;
only its single-use completion flag matters to the metrics claims
(spec sections 3 and 4.4). -/
structure MonitoredClientStream where
  doneObserving : Bool
deriving DecidableEq

/-- Modelled from the spec: the guarded transition to Closed — the
completion-side operations fire if and only if the completion flag has not
yet been set; any later terminal signal is a metrics no-op
(spec section 4.4). -/
def finishStream (s : MonitoredClientStream) (code : StatusCode) :
    MonitoredClientStream × List MetricOp :=
  if s.doneObserving then (s, [])
  else ({ doneObserving := true }, [.handled code, .observeDuration])

/-- Modelled from the spec: the wrapper's receive operation.  It passes
through to the underlying stream: a successful message counts one received
message and is returned; the normal end-of-stream signal closes the stream
with "OK" and is returned to the caller unchanged; any other error closes
the stream with that error's status and propagates it (spec section 4.4). -/
def recvMsgStep (s : MonitoredClientStream) :
    RecvEvent → MonitoredClientStream × List MetricOp × RecvEvent
  | .msg => (s, [.msgReceived], .msg)
  | .eof => ((finishStream s "OK").1, (finishStream s "OK").2, .eof)
  | .recvError c => ((finishStream s c).1, (finishStream s c).2, .recvError c)

/-- Modelled from the spec: the wrapper's send operation.  It passes through
to the underlying stream, counts on success, and on failure closes the
stream with the failure's status before propagating it (spec section 4.4). -/
def sendMsgStep (s : MonitoredClientStream) :
    SendResult → MonitoredClientStream × List MetricOp × SendResult
  | .sendOk => (s, [.msgSent], .sendOk)
  | .sendError c => ((finishStream s c).1, (finishStream s c).2, .sendError c)

/-- Running the wrapper over a sequence of receive outcomes delivered by the
underlying stream, collecting the emitted metric operations in order. -/
def runRecvs : MonitoredClientStream → List RecvEvent →
    MonitoredClientStream × List MetricOp
  | s, [] => (s, [])
  | s, ev :: rest =>
    ((runRecvs (recvMsgStep s ev).1 rest).1,
     (recvMsgStep s ev).2.1 ++ (runRecvs (recvMsgStep s ev).1 rest).2)

/-- Running the wrapper over a sequence of send outcomes, collecting the
emitted metric operations in order. -/
def runSends : MonitoredClientStream → List SendResult →
    MonitoredClientStream × List MetricOp
  | s, [] => (s, [])
  | s, r :: rest =>
    ((runSends (sendMsgStep s r).1 rest).1,
     (sendMsgStep s r).2.1 ++ (runSends (sendMsgStep s r).1 rest).2)

/-- Modelled from the spec: the Unary Call Reporter driven by the unary
entry point — incStarted, invoke the underlying call, incHandled with the
terminal status and observe the duration, and return the underlying result
unchanged (spec sections 4.3 and 4.5). -/
def unaryCallOps (res : CallResult) : List MetricOp :=
  [.started, .handled res.statusCode, .observeDuration]

/-- Modelled from the spec: the unary client interceptor applied to a call
whose underlying invocation yields the given result; it updates the registry
and returns the result unchanged (spec sections 4.3 and 4.5). -/
def UnaryClientInterceptor (m : ClientMetrics) (lbl : CallLabels) (res : CallResult) :
    ClientMetrics × CallResult :=
  (applyOps lbl m (unaryCallOps res), res)

/-- Modelled from the spec: the streaming entry point — it classifies the
call, establishes the underlying stream, fires incStarted, and returns the
wrapped stream handle (completion flag unset) to the caller without error;
any terminal error surfaces later through the wrapper's operations
(spec section 4.5). -/
def StreamClientInterceptor (m : ClientMetrics) (lbl : CallLabels) :
    ClientMetrics × MonitoredClientStream :=
  (incStarted m lbl, { doneObserving := false })

/-- Modelled from the spec: the ordered metric operations of one complete
streaming call — incStarted at establishment, then the wrapper's view of the
call's send results followed by its receive outcomes (spec sections 4.4, 4.5). -/
def streamCallOps (sends : List SendResult) (recvs : List RecvEvent) : List MetricOp :=
  MetricOp.started ::
    ((runSends { doneObserving := false } sends).2 ++
     (runRecvs (runSends { doneObserving := false } sends).1 recvs).2)

/-- The registry after one complete streaming call at the given labels. -/
def afterStreamCall (m : ClientMetrics) (lbl : CallLabels)
    (sends : List SendResult) (recvs : List RecvEvent) : ClientMetrics :=
  applyOps lbl m (streamCallOps sends recvs)

/-- The concatenated metric traces of a batch of unary calls, one trace per
underlying outcome, in batch order. -/
def callTraces (results : List CallResult) : List MetricOp :=
  results.foldr (fun r acc => unaryCallOps r ++ acc) []

/-! ### Helper lemmas about interpreting metric operation traces -/

lemma countP_replicate {α : Type} (p : α → Bool) (n : Nat) (a : α) :
    (List.replicate n a).countP p = if p a then n else 0 := by
  induction n with
  | zero => simp
  | succ k ih => simp [List.replicate_succ, List.countP_cons, ih]; split <;> omega

lemma applyOps_cons (lbl : CallLabels) (m : ClientMetrics) (op : MetricOp)
    (rest : List MetricOp) :
    applyOps lbl m (op :: rest) = applyOps lbl (applyOp lbl m op) rest := rfl

lemma applyOp_enabled (lbl : CallLabels) (m : ClientMetrics) (op : MetricOp) :
    (applyOp lbl m op).handlingTimeHistogramEnabled = m.handlingTimeHistogramEnabled := by
  cases op <;>
    simp [applyOp, incStarted, incMsgSent, incMsgReceived, incHandled,
      observeHandledDuration] <;> split <;> rfl

lemma applyOps_startedCounter (lbl : CallLabels) (ops : List MetricOp) :
    ∀ m : ClientMetrics,
      (applyOps lbl m ops).clientStartedCounter lbl =
        m.clientStartedCounter lbl + ops.countP MetricOp.isStarted := by
  induction ops with
  | nil => intro m; simp [applyOps]
  | cons op rest ih =>
    intro m
    rw [applyOps_cons, ih, List.countP_cons]
    cases op <;>
      simp [applyOp, incStarted, incMsgSent, incMsgReceived, incHandled,
        observeHandledDuration, MetricOp.isStarted] <;>
      first
      | omega
      | (split <;> simp <;> omega)

lemma applyOps_msgSentCounter (lbl : CallLabels) (ops : List MetricOp) :
    ∀ m : ClientMetrics,
      (applyOps lbl m ops).clientStreamMsgSent lbl =
        m.clientStreamMsgSent lbl + ops.countP MetricOp.isMsgSent := by
  induction ops with
  | nil => intro m; simp [applyOps]
  | cons op rest ih =>
    intro m
    rw [applyOps_cons, ih, List.countP_cons]
    cases op <;>
      simp [applyOp, incStarted, incMsgSent, incMsgReceived, incHandled,
        observeHandledDuration, MetricOp.isMsgSent] <;>
      first
      | omega
      | (split <;> simp <;> omega)

lemma applyOps_msgReceivedCounter (lbl : CallLabels) (ops : List MetricOp) :
    ∀ m : ClientMetrics,
      (applyOps lbl m ops).clientStreamMsgReceived lbl =
        m.clientStreamMsgReceived lbl + ops.countP MetricOp.isMsgReceived := by
  induction ops with
  | nil => intro m; simp [applyOps]
  | cons op rest ih =>
    intro m
    rw [applyOps_cons, ih, List.countP_cons]
    cases op <;>
      simp [applyOp, incStarted, incMsgSent, incMsgReceived, incHandled,
        observeHandledDuration, MetricOp.isMsgReceived] <;>
      first
      | omega
      | (split <;> simp <;> omega)

lemma applyOps_handledCounter (lbl : CallLabels) (c : StatusCode) (ops : List MetricOp) :
    ∀ m : ClientMetrics,
      (applyOps lbl m ops).clientHandledCounter lbl c =
        m.clientHandledCounter lbl c + ops.countP (MetricOp.isHandledWith c) := by
  induction ops with
  | nil => intro m; simp [applyOps]
  | cons op rest ih =>
    intro m
    rw [applyOps_cons, ih, List.countP_cons]
    cases op with
    | handled code =>
      by_cases h : c = code
      · subst h
        simp [applyOp, incHandled, MetricOp.isHandledWith]
        omega
      · simp [applyOp, incHandled, MetricOp.isHandledWith, h, Ne.symm h]
    | observeDuration =>
      simp [applyOp, observeHandledDuration, MetricOp.isHandledWith]
      split <;> simp
    | _ =>
      simp [applyOp, incStarted, incMsgSent, incMsgReceived, MetricOp.isHandledWith]

lemma applyOps_histogram (lbl : CallLabels) (ops : List MetricOp) :
    ∀ m : ClientMetrics, m.handlingTimeHistogramEnabled = true →
      (applyOps lbl m ops).clientHandledHistogram lbl =
        m.clientHandledHistogram lbl + ops.countP MetricOp.isObserve := by
  induction ops with
  | nil => intro m _; simp [applyOps]
  | cons op rest ih =>
    intro m hm
    rw [applyOps_cons, ih _ (by rw [applyOp_enabled]; exact hm), List.countP_cons]
    cases op <;>
      simp [applyOp, incStarted, incMsgSent, incMsgReceived, incHandled,
        observeHandledDuration, MetricOp.isObserve, hm] <;>
      omega

/-! ### Helper lemmas about the stream wrapper -/

lemma finishStream_open (code : StatusCode) :
    finishStream { doneObserving := false } code =
      ({ doneObserving := true }, [.handled code, .observeDuration]) := rfl

lemma finishStream_closed (code : StatusCode) :
    finishStream { doneObserving := true } code = ({ doneObserving := true }, []) := rfl

lemma recvMsgStep_event (s : MonitoredClientStream) (ev : RecvEvent) :
    (recvMsgStep s ev).2.2 = ev := by
  cases ev <;> rfl

lemma sendMsgStep_result (s : MonitoredClientStream) (r : SendResult) :
    (sendMsgStep s r).2.2 = r := by
  cases r <;> rfl

lemma recvMsgStep_terminal_open (t : RecvEvent) (ht : t.isTerminal = true) :
    recvMsgStep { doneObserving := false } t =
      ({ doneObserving := true }, [.handled t.terminalCode, .observeDuration], t) := by
  cases t with
  | msg => simp [RecvEvent.isTerminal] at ht
  | eof => rfl
  | recvError c => rfl

lemma recvMsgStep_terminal_closed (t : RecvEvent) (ht : t.isTerminal = true) :
    recvMsgStep { doneObserving := true } t = ({ doneObserving := true }, [], t) := by
  cases t with
  | msg => simp [RecvEvent.isTerminal] at ht
  | eof => rfl
  | recvError c => rfl

lemma runRecvs_append (a : List RecvEvent) (b : List RecvEvent) :
    ∀ s : MonitoredClientStream,
      runRecvs s (a ++ b) =
        ((runRecvs (runRecvs s a).1 b).1,
         (runRecvs s a).2 ++ (runRecvs (runRecvs s a).1 b).2) := by
  induction a with
  | nil => intro s; simp [runRecvs]
  | cons ev rest ih =>
    intro s
    simp [runRecvs, ih (recvMsgStep s ev).1, List.append_assoc]

lemma runRecvs_replicate_msg (k : Nat) :
    ∀ s : MonitoredClientStream,
      runRecvs s (List.replicate k .msg) = (s, List.replicate k .msgReceived) := by
  induction k with
  | zero => intro s; rfl
  | succ n ih =>
    intro s
    simp [List.replicate_succ, runRecvs, recvMsgStep, ih]

lemma runRecvs_all_terminal_closed (ts : List RecvEvent)
    (h : ∀ e ∈ ts, e.isTerminal = true) :
    runRecvs { doneObserving := true } ts = ({ doneObserving := true }, []) := by
  induction ts with
  | nil => rfl
  | cons t rest ih =>
    have ht : t.isTerminal = true := h t (by simp)
    have hrest : ∀ e ∈ rest, e.isTerminal = true := fun e he => h e (by simp [he])
    simp [runRecvs, recvMsgStep_terminal_closed t ht, ih hrest]

lemma runRecvs_msgs_then_terminal (k : Nat) (t : RecvEvent) (ts : List RecvEvent)
    (ht : t.isTerminal = true) (hts : ∀ e ∈ ts, e.isTerminal = true) :
    runRecvs { doneObserving := false } (List.replicate k .msg ++ (t :: ts)) =
      ({ doneObserving := true },
       List.replicate k .msgReceived ++ [.handled t.terminalCode, .observeDuration]) := by
  rw [runRecvs_append]
  rw [runRecvs_replicate_msg]
  simp only [runRecvs, recvMsgStep_terminal_open t ht, runRecvs_all_terminal_closed ts hts]
  simp

lemma runSends_all_ok (sends : List SendResult) (h : ∀ r ∈ sends, r = SendResult.sendOk) :
    ∀ s : MonitoredClientStream,
      runSends s sends = (s, List.replicate sends.length .msgSent) := by
  induction sends with
  | nil => intro s; rfl
  | cons r rest ih =>
    intro s
    have hr : r = SendResult.sendOk := h r (by simp)
    have hrest : ∀ x ∈ rest, x = SendResult.sendOk := fun x hx => h x (by simp [hx])
    subst hr
    simp [runSends, sendMsgStep, ih hrest, List.replicate_succ]

lemma handledCount_runRecvs (evs : List RecvEvent) :
    ∀ s : MonitoredClientStream,
      ((runRecvs s evs).2).countP MetricOp.isHandled =
        if s.doneObserving then 0
        else if evs.any RecvEvent.isTerminal then 1 else 0 := by
  induction evs with
  | nil => intro s; simp [runRecvs]
  | cons ev rest ih =>
    intro s
    cases s with
    | mk d =>
      cases d with
      | true =>
        cases ev with
        | msg =>
          simp [runRecvs, recvMsgStep, List.countP_append, ih, List.countP_cons,
            MetricOp.isHandled]
        | eof =>
          simp [runRecvs, recvMsgStep, finishStream_closed, List.countP_append, ih]
        | recvError c =>
          simp [runRecvs, recvMsgStep, finishStream_closed, List.countP_append, ih]
      | false =>
        cases ev with
        | msg =>
          simp [runRecvs, recvMsgStep, List.countP_append, ih, List.countP_cons,
            MetricOp.isHandled, RecvEvent.isTerminal]
        | eof =>
          simp [runRecvs, recvMsgStep, finishStream_open, List.countP_append, ih,
            List.countP_cons, MetricOp.isHandled, RecvEvent.isTerminal]
        | recvError c =>
          simp [runRecvs, recvMsgStep, finishStream_open, List.countP_append, ih,
            List.countP_cons, MetricOp.isHandled, RecvEvent.isTerminal]

lemma msgSentCount_runRecvs (evs : List RecvEvent) :
    ∀ s : MonitoredClientStream,
      ((runRecvs s evs).2).countP MetricOp.isMsgSent = 0 := by
  induction evs with
  | nil => intro s; simp [runRecvs]
  | cons ev rest ih =>
    intro s
    cases ev with
    | msg =>
      simp [runRecvs, recvMsgStep, List.countP_append, ih, List.countP_cons,
        MetricOp.isMsgSent]
    | eof =>
      cases s with
      | mk d =>
        cases d <;>
          simp [runRecvs, recvMsgStep, finishStream_open, finishStream_closed,
            List.countP_append, ih, List.countP_cons, MetricOp.isMsgSent]
    | recvError c =>
      cases s with
      | mk d =>
        cases d <;>
          simp [runRecvs, recvMsgStep, finishStream_open, finishStream_closed,
            List.countP_append, ih, List.countP_cons, MetricOp.isMsgSent]

lemma runRecvs_done (evs : List RecvEvent) :
    ∀ s : MonitoredClientStream,
      (runRecvs s evs).1.doneObserving =
        (s.doneObserving || evs.any RecvEvent.isTerminal) := by
  induction evs with
  | nil => intro s; simp [runRecvs]
  | cons ev rest ih =>
    intro s
    cases s with
    | mk d =>
      cases d with
      | true =>
        cases ev <;>
          simp [runRecvs, recvMsgStep, finishStream_closed, ih]
      | false =>
        cases ev <;>
          simp [runRecvs, recvMsgStep, finishStream_open, ih, RecvEvent.isTerminal]

lemma streamCallOps_shape (sends : List SendResult)
    (hs : ∀ r ∈ sends, r = SendResult.sendOk) (k : Nat) (t : RecvEvent)
    (ts : List RecvEvent) (ht : t.isTerminal = true)
    (hts : ∀ e ∈ ts, e.isTerminal = true) :
    streamCallOps sends (List.replicate k .msg ++ (t :: ts)) =
      MetricOp.started :: (List.replicate sends.length .msgSent ++
        (List.replicate k .msgReceived ++
          [.handled t.terminalCode, .observeDuration])) := by
  unfold streamCallOps
  simp only [runSends_all_ok sends hs, runRecvs_msgs_then_terminal k t ts ht hts]

/-! ### Claim theorems -/

/-- Claim C1: completion-side metrics fire exactly once per stream.  After
the first terminal signal transitions the stream to Closed, any subsequent
terminal signal leaves HandledCounter and HandledHistogram unchanged; the
trace of a stream run containing a terminal signal (and however many further
signals) contains exactly one incHandled operation. -/
theorem stream_handled_fires_exactly_once
    (evs evs2 : List RecvEvent) (h : evs.any RecvEvent.isTerminal = true)
    (m : ClientMetrics) (lbl : CallLabels) :
    ((runRecvs { doneObserving := false } (evs ++ evs2)).2).countP MetricOp.isHandled = 1 ∧
    ∀ (s : MonitoredClientStream) (ev : RecvEvent),
      s.doneObserving = true → ev.isTerminal = true →
        (applyOps lbl m (recvMsgStep s ev).2.1).clientHandledCounter =
          m.clientHandledCounter ∧
        (applyOps lbl m (recvMsgStep s ev).2.1).clientHandledHistogram =
          m.clientHandledHistogram := by
  constructor
  · rw [runRecvs_append, List.countP_append, handledCount_runRecvs,
      handledCount_runRecvs, runRecvs_done]
    simp [h]
  · intro s ev hs ht
    cases s with
    | mk d =>
      simp only at hs
      subst hs
      rw [recvMsgStep_terminal_closed ev ht]
      exact ⟨rfl, rfl⟩

/-- Witness for C1 at a concrete stream run: one message, then end-of-stream,
then two further terminal signals; incHandled fires exactly once. -/
theorem stream_handled_fires_exactly_once_witness :
    ((runRecvs { doneObserving := false }
        ([RecvEvent.msg, RecvEvent.eof] ++ [RecvEvent.eof, RecvEvent.eof])).2).countP
      MetricOp.isHandled = 1 :=
  (stream_handled_fires_exactly_once [RecvEvent.msg, RecvEvent.eof]
    [RecvEvent.eof, RecvEvent.eof] (by decide) NewClientMetrics
    { callType := .serverStream, service := "mwitkow.testproto.TestService",
      method := "PingList" }).1

/-- Claim C2: a unary call terminating with status S increments
StartedCounter at the call's labels by exactly one, HandledCounter at the
labels plus S by exactly one, records exactly one histogram observation when
the histogram is enabled, and returns the underlying result unchanged; the
outcome is arbitrary, covering both success and a declared error code. -/
theorem unary_call_reporter_metrics (m : ClientMetrics) (lbl : CallLabels)
    (res : CallResult) (he : m.handlingTimeHistogramEnabled = true) :
    (UnaryClientInterceptor m lbl res).1.clientStartedCounter lbl =
      m.clientStartedCounter lbl + 1 ∧
    (UnaryClientInterceptor m lbl res).1.clientHandledCounter lbl res.statusCode =
      m.clientHandledCounter lbl res.statusCode + 1 ∧
    (UnaryClientInterceptor m lbl res).1.clientHandledHistogram lbl =
      m.clientHandledHistogram lbl + 1 ∧
    (UnaryClientInterceptor m lbl res).2 = res := by
  refine ⟨?_, ?_, ?_, rfl⟩
  · show (applyOps lbl m (unaryCallOps res)).clientStartedCounter lbl = _
    rw [applyOps_startedCounter]
    simp [unaryCallOps, List.countP_cons, MetricOp.isStarted]
  · show (applyOps lbl m (unaryCallOps res)).clientHandledCounter lbl res.statusCode = _
    rw [applyOps_handledCounter]
    simp [unaryCallOps, List.countP_cons, MetricOp.isHandledWith]
  · show (applyOps lbl m (unaryCallOps res)).clientHandledHistogram lbl = _
    rw [applyOps_histogram lbl (unaryCallOps res) m he]
    simp [unaryCallOps, List.countP_cons, MetricOp.isObserve]

/-- Witness for C2 at the test's unary call: a successful PingEmpty call on a
fresh registry with the histogram enabled. -/
theorem unary_call_reporter_metrics_witness :
    (UnaryClientInterceptor NewClientMetrics.enableClientHandlingTimeHistogram
        { callType := .unary, service := "mwitkow.testproto.TestService",
          method := "PingEmpty" } CallResult.callOk).1.clientStartedCounter
        { callType := .unary, service := "mwitkow.testproto.TestService",
          method := "PingEmpty" } = 1 ∧
    (UnaryClientInterceptor NewClientMetrics.enableClientHandlingTimeHistogram
        { callType := .unary, service := "mwitkow.testproto.TestService",
          method := "PingEmpty" } CallResult.callOk).1.clientHandledCounter
        { callType := .unary, service := "mwitkow.testproto.TestService",
          method := "PingEmpty" } "OK" = 1 ∧
    (UnaryClientInterceptor NewClientMetrics.enableClientHandlingTimeHistogram
        { callType := .unary, service := "mwitkow.testproto.TestService",
          method := "PingEmpty" } CallResult.callOk).1.clientHandledHistogram
        { callType := .unary, service := "mwitkow.testproto.TestService",
          method := "PingEmpty" } = 1 ∧
    (UnaryClientInterceptor NewClientMetrics.enableClientHandlingTimeHistogram
        { callType := .unary, service := "mwitkow.testproto.TestService",
          method := "PingEmpty" } CallResult.callOk).2 = CallResult.callOk :=
  unary_call_reporter_metrics NewClientMetrics.enableClientHandlingTimeHistogram
    { callType := .unary, service := "mwitkow.testproto.TestService",
      method := "PingEmpty" } CallResult.callOk rfl

/-- Claim C3: a streaming call yielding K successful response messages and
then the normal end-of-stream signal leaves StartedCounter at 1,
StreamMsgReceivedCounter at K and HandledCounter with status "OK" at 1 on a
fresh registry, for any all-successful sequence of request sends; the
end-of-stream signal is returned to the caller unchanged. -/
theorem streaming_ok_call_metrics (k : Nat) (lbl : CallLabels)
    (sends : List SendResult) (hs : ∀ r ∈ sends, r = SendResult.sendOk) :
    (afterStreamCall NewClientMetrics lbl sends
        (List.replicate k .msg ++ [.eof])).clientStartedCounter lbl = 1 ∧
    (afterStreamCall NewClientMetrics lbl sends
        (List.replicate k .msg ++ [.eof])).clientStreamMsgReceived lbl = k ∧
    (afterStreamCall NewClientMetrics lbl sends
        (List.replicate k .msg ++ [.eof])).clientHandledCounter lbl "OK" = 1 ∧
    ∀ s : MonitoredClientStream, (recvMsgStep s RecvEvent.eof).2.2 = RecvEvent.eof := by
  have hshape := streamCallOps_shape sends hs k RecvEvent.eof [] rfl (by simp)
  refine ⟨?_, ?_, ?_, fun s => recvMsgStep_event s RecvEvent.eof⟩
  · show (applyOps lbl NewClientMetrics _).clientStartedCounter lbl = 1
    rw [hshape, applyOps_startedCounter]
    simp [NewClientMetrics, List.countP_cons, List.countP_append, countP_replicate,
      MetricOp.isStarted]
  · show (applyOps lbl NewClientMetrics _).clientStreamMsgReceived lbl = k
    rw [hshape, applyOps_msgReceivedCounter]
    simp [NewClientMetrics, List.countP_cons, List.countP_append, countP_replicate,
      MetricOp.isMsgReceived]
  · show (applyOps lbl NewClientMetrics _).clientHandledCounter lbl "OK" = 1
    rw [hshape, applyOps_handledCounter]
    simp [NewClientMetrics, List.countP_cons, List.countP_append, countP_replicate,
      MetricOp.isHandledWith, RecvEvent.terminalCode]

/-- Witness for C3 at the test's streaming call shape: one request sent,
three messages received, then end-of-stream. -/
theorem streaming_ok_call_metrics_witness :
    (afterStreamCall NewClientMetrics
        { callType := .serverStream, service := "mwitkow.testproto.TestService",
          method := "PingList" } [SendResult.sendOk]
        (List.replicate 3 .msg ++ [.eof])).clientStreamMsgReceived
      { callType := .serverStream, service := "mwitkow.testproto.TestService",
        method := "PingList" } = 3 :=
  (streaming_ok_call_metrics 3
    { callType := .serverStream, service := "mwitkow.testproto.TestService",
      method := "PingList" } [SendResult.sendOk] (by decide)).2.1

/-- Claim C4: a streaming call whose first receive yields an error with
status code E leaves StartedCounter at 1, StreamMsgReceivedCounter at 0 and
HandledCounter at the labels plus E at 1 on a fresh registry, for any
all-successful sequence of request sends. -/
theorem streaming_first_recv_error_metrics (c : StatusCode) (lbl : CallLabels)
    (sends : List SendResult) (hs : ∀ r ∈ sends, r = SendResult.sendOk) :
    (afterStreamCall NewClientMetrics lbl sends
        [.recvError c]).clientStartedCounter lbl = 1 ∧
    (afterStreamCall NewClientMetrics lbl sends
        [.recvError c]).clientStreamMsgReceived lbl = 0 ∧
    (afterStreamCall NewClientMetrics lbl sends
        [.recvError c]).clientHandledCounter lbl c = 1 := by
  have hshape := streamCallOps_shape sends hs 0 (RecvEvent.recvError c) [] rfl (by simp)
  simp only [List.replicate, List.nil_append] at hshape
  refine ⟨?_, ?_, ?_⟩
  · show (applyOps lbl NewClientMetrics _).clientStartedCounter lbl = 1
    rw [hshape, applyOps_startedCounter]
    simp [NewClientMetrics, List.countP_cons, List.countP_append, countP_replicate,
      MetricOp.isStarted]
  · show (applyOps lbl NewClientMetrics _).clientStreamMsgReceived lbl = 0
    rw [hshape, applyOps_msgReceivedCounter]
    simp [NewClientMetrics, List.countP_cons, List.countP_append, countP_replicate,
      MetricOp.isMsgReceived]
  · show (applyOps lbl NewClientMetrics _).clientHandledCounter lbl c = 1
    rw [hshape, applyOps_handledCounter]
    simp [NewClientMetrics, List.countP_cons, List.countP_append, countP_replicate,
      MetricOp.isHandledWith, RecvEvent.terminalCode]

/-- Witness for C4 at the test's failing streaming call: the first receive
yields FailedPrecondition. -/
theorem streaming_first_recv_error_metrics_witness :
    (afterStreamCall NewClientMetrics
        { callType := .serverStream, service := "mwitkow.testproto.TestService",
          method := "PingList" } [SendResult.sendOk]
        [.recvError "FailedPrecondition"]).clientHandledCounter
      { callType := .serverStream, service := "mwitkow.testproto.TestService",
        method := "PingList" } "FailedPrecondition" = 1 :=
  (streaming_first_recv_error_metrics "FailedPrecondition"
    { callType := .serverStream, service := "mwitkow.testproto.TestService",
      method := "PingList" } [SendResult.sendOk] (by decide)).2.2

/-- Claim C5: an error from the underlying invocation is recorded under its
status code as the status-code label of HandledCounter and then returned
exactly as is — for the unary reporter, for the wrapper's receive path and
for the wrapper's send path; it is never suppressed or replaced. -/
theorem errors_recorded_and_propagated (m : ClientMetrics) (lbl : CallLabels)
    (c : StatusCode) :
    (UnaryClientInterceptor m lbl (.callError c)).2 = CallResult.callError c ∧
    (UnaryClientInterceptor m lbl (.callError c)).1.clientHandledCounter lbl c =
      m.clientHandledCounter lbl c + 1 ∧
    (∀ s : MonitoredClientStream,
      (recvMsgStep s (.recvError c)).2.2 = RecvEvent.recvError c) ∧
    (∀ (s : MonitoredClientStream) (r : SendResult), (sendMsgStep s r).2.2 = r) ∧
    (∀ s : MonitoredClientStream, s.doneObserving = false →
      (applyOps lbl m (recvMsgStep s (.recvError c)).2.1).clientHandledCounter lbl c =
        m.clientHandledCounter lbl c + 1) := by
  refine ⟨rfl, ?_, fun s => recvMsgStep_event s _, fun s r => sendMsgStep_result s r, ?_⟩
  · show (applyOps lbl m (unaryCallOps (.callError c))).clientHandledCounter lbl c = _
    rw [applyOps_handledCounter]
    simp [unaryCallOps, CallResult.statusCode, List.countP_cons, MetricOp.isHandledWith]
  · intro s hs
    cases s with
    | mk d =>
      simp only at hs
      subst hs
      rw [show (recvMsgStep { doneObserving := false } (.recvError c)).2.1 =
        [.handled c, .observeDuration] from rfl]
      rw [applyOps_handledCounter]
      simp [List.countP_cons, MetricOp.isHandledWith]

/-- Witness for C5 at the test's failing calls: a FailedPrecondition error
from the underlying unary invocation is returned unchanged. -/
theorem errors_recorded_and_propagated_witness :
    (UnaryClientInterceptor NewClientMetrics
        { callType := .unary, service := "mwitkow.testproto.TestService",
          method := "PingError" } (.callError "FailedPrecondition")).2 =
      CallResult.callError "FailedPrecondition" :=
  (errors_recorded_and_propagated NewClientMetrics
    { callType := .unary, service := "mwitkow.testproto.TestService",
      method := "PingError" } "FailedPrecondition").1

lemma runSends_append (a b : List SendResult) :
    ∀ s : MonitoredClientStream,
      runSends s (a ++ b) =
        ((runSends (runSends s a).1 b).1,
         (runSends s a).2 ++ (runSends (runSends s a).1 b).2) := by
  induction a with
  | nil => intro s; simp [runSends]
  | cons r rest ih =>
    intro s
    simp [runSends, ih (sendMsgStep s r).1, List.append_assoc]

lemma runSends_all_failure_closed (ts : List SendResult)
    (h : ∀ r ∈ ts, r.isFailure = true) :
    runSends { doneObserving := true } ts = ({ doneObserving := true }, []) := by
  induction ts with
  | nil => rfl
  | cons r rest ih =>
    have hr : r.isFailure = true := h r (by simp)
    have hrest : ∀ x ∈ rest, x.isFailure = true := fun x hx => h x (by simp [hx])
    cases r with
    | sendOk => simp [SendResult.isFailure] at hr
    | sendError d =>
      simp [runSends, sendMsgStep, finishStream_closed, ih hrest]

lemma streamCallOps_sendfail_shape (n : Nat) (c : StatusCode) (ts : List SendResult)
    (recvs : List RecvEvent) (hts : ∀ r ∈ ts, r.isFailure = true)
    (hrecvs : ∀ e ∈ recvs, e.isTerminal = true) :
    streamCallOps (List.replicate n .sendOk ++ (.sendError c :: ts)) recvs =
      MetricOp.started :: (List.replicate n .msgSent ++
        [.handled c, .observeDuration]) := by
  have hok : ∀ r ∈ List.replicate n SendResult.sendOk, r = SendResult.sendOk :=
    fun r hr => List.eq_of_mem_replicate hr
  unfold streamCallOps
  rw [runSends_append]
  simp only [runSends_all_ok (List.replicate n SendResult.sendOk) hok]
  simp only [runSends, sendMsgStep, finishStream_open,
    runSends_all_failure_closed ts hts]
  simp only [runRecvs_all_terminal_closed recvs hrecvs]
  simp

/-- Claim C6: for a single call the metric operations occur in strict
order — the one incStarted comes first, every incMsgSent and incMsgReceived
of the call comes after it, and the single incHandled/observeHandledDuration
pair comes last; in particular incHandled is never emitted before
incStarted.  Both terminal paths of a stream are covered: a call closed from
the receive path (all sends succeed, then messages, then one or more
terminal receive signals) and a call closed from the send path (successful
sends up to one failing send, after which only send failures and terminal
receive signals can occur on the broken stream); the unary trace is listed
in full. -/
theorem metric_ops_strictly_ordered :
    (∀ sends : List SendResult, (∀ r ∈ sends, r = SendResult.sendOk) →
      ∀ (k : Nat) (t : RecvEvent) (ts : List RecvEvent),
        t.isTerminal = true → (∀ e ∈ ts, e.isTerminal = true) →
        streamCallOps sends (List.replicate k .msg ++ (t :: ts)) =
          MetricOp.started :: (List.replicate sends.length .msgSent ++
            (List.replicate k .msgReceived ++
              [.handled t.terminalCode, .observeDuration]))) ∧
    (∀ (n : Nat) (c : StatusCode) (ts : List SendResult) (recvs : List RecvEvent),
      (∀ r ∈ ts, r.isFailure = true) → (∀ e ∈ recvs, e.isTerminal = true) →
      streamCallOps (List.replicate n .sendOk ++ (.sendError c :: ts)) recvs =
        MetricOp.started :: (List.replicate n .msgSent ++
          [.handled c, .observeDuration])) ∧
    (∀ res : CallResult,
      unaryCallOps res = [.started, .handled res.statusCode, .observeDuration]) :=
  ⟨fun sends hs k t ts ht hts => streamCallOps_shape sends hs k t ts ht hts,
   fun n c ts recvs hts hrecvs => streamCallOps_sendfail_shape n c ts recvs hts hrecvs,
   fun _ => rfl⟩

/-- Witness for C6 at two concrete streaming calls: one closed from the
receive path (one successful send, two messages, then end-of-stream) and one
closed from the send path (one successful send, then a failing send, then a
terminal receive). -/
theorem metric_ops_strictly_ordered_witness :
    streamCallOps [SendResult.sendOk] (List.replicate 2 .msg ++ (RecvEvent.eof :: [])) =
      MetricOp.started :: (List.replicate 1 .msgSent ++
        (List.replicate 2 .msgReceived ++
          [.handled "OK", .observeDuration])) ∧
    streamCallOps (List.replicate 1 .sendOk ++ (.sendError "Unavailable" :: []))
        [RecvEvent.recvError "Unavailable"] =
      MetricOp.started :: (List.replicate 1 .msgSent ++
        [.handled "Unavailable", .observeDuration]) :=
  ⟨metric_ops_strictly_ordered.1 [SendResult.sendOk] (by decide) 2 RecvEvent.eof []
    rfl (by decide),
   metric_ops_strictly_ordered.2.1 1 "Unavailable" [] [RecvEvent.recvError "Unavailable"]
    (by decide) (by decide)⟩

lemma takeWhile_dropWhile_no_slash (mth : List Char) :
    ∀ svc : List Char, '/' ∉ svc →
      (svc ++ '/' :: mth).takeWhile (fun c => !(c == '/')) = svc ∧
      (svc ++ '/' :: mth).dropWhile (fun c => !(c == '/')) = '/' :: mth := by
  intro svc
  induction svc with
  | nil => intro; simp [List.takeWhile_cons, List.dropWhile_cons]
  | cons a rest ih =>
    intro h
    have ha : (a == '/') = false := by
      simp only [List.mem_cons] at h
      simp [beq_eq_false_iff_ne]
      intro hEq
      exact h (Or.inl hEq.symm)
    have h' : '/' ∉ rest := fun hr => h (List.mem_cons_of_mem a hr)
    simp [List.takeWhile_cons, List.dropWhile_cons, ha, (ih h').1, (ih h').2]

/-- Claim C7: the Call Classifier's identifier parsing is a pure function of
its input; on a well-formed identifier "/Service/Method" (the service part
containing no delimiter) it returns the service and method components, and
on a malformed identifier — no delimiter left after stripping the leading
one — it yields empty string components instead of failing. -/
theorem splitMethodName_correct (svc mth : List Char) (hsvc : '/' ∉ svc) :
    splitMethodName (String.mk ('/' :: (svc ++ '/' :: mth))) =
      (String.mk svc, String.mk mth) ∧
    ∀ l : List Char, '/' ∉ l →
      splitMethodName (String.mk l) = ("", "") ∧
      splitMethodName (String.mk ('/' :: l)) = ("", "") := by
  constructor
  · have hmem : '/' ∈ svc ++ '/' :: mth := by simp
    have htd := takeWhile_dropWhile_no_slash mth svc hsvc
    simp [splitMethodName, hmem, htd.1, htd.2]
  · intro l hl
    constructor
    · cases l with
      | nil => rfl
      | cons c rest =>
        have hc : ¬ c = '/' := by
          intro hEq
          exact hl (by simp [hEq])
        simp [splitMethodName, hc, hl]
    · simp [splitMethodName, hl]

/-- Witness for C7 at the test's method identifier shape: a well-formed
identifier splits into its components, and a delimiter-free identifier
yields empty components. -/
theorem splitMethodName_correct_witness :
    splitMethodName (String.mk ('/' :: (['S'] ++ '/' :: ['M']))) =
      (String.mk ['S'], String.mk ['M']) :=
  (splitMethodName_correct ['S'] ['M'] (by decide)).1

lemma countP_callTraces_started (results : List CallResult) :
    (callTraces results).countP MetricOp.isStarted = results.length := by
  induction results with
  | nil => rfl
  | cons r rest ih =>
    simp [callTraces, List.countP_append, List.countP_cons, unaryCallOps,
      MetricOp.isStarted] at ih ⊢
    omega

lemma countP_callTraces_handled (results : List CallResult) :
    (callTraces results).countP MetricOp.isHandled = results.length := by
  induction results with
  | nil => rfl
  | cons r rest ih =>
    simp [callTraces, List.countP_append, List.countP_cons, unaryCallOps,
      MetricOp.isHandled] at ih ⊢
    omega

/-- Claim C8: for M calls to the same method running concurrently, modelled
as an arbitrary interleaving (permutation) of the per-call traces applied to
the registry through the adapter's atomic operations, each call's trace
carries exactly one incStarted and one incHandled, and after all complete
the StartedCounter for the method's labels has grown by exactly M — no
increment is lost or duplicated. -/
theorem concurrent_calls_counted (M : Nat) (lbl : CallLabels) (m : ClientMetrics)
    (results : List CallResult) (hlen : results.length = M)
    (l : List MetricOp) (hperm : l.Perm (callTraces results)) :
    (applyOps lbl m l).clientStartedCounter lbl = m.clientStartedCounter lbl + M ∧
    l.countP MetricOp.isStarted = M ∧
    l.countP MetricOp.isHandled = M ∧
    ∀ res : CallResult,
      (unaryCallOps res).countP MetricOp.isStarted = 1 ∧
      (unaryCallOps res).countP MetricOp.isHandled = 1 := by
  have hst : l.countP MetricOp.isStarted = M := by
    rw [hperm.countP_eq, countP_callTraces_started, hlen]
  have hhd : l.countP MetricOp.isHandled = M := by
    rw [hperm.countP_eq, countP_callTraces_handled, hlen]
  refine ⟨?_, hst, hhd, ?_⟩
  · rw [applyOps_startedCounter, hst]
  · intro res
    constructor <;>
      simp [unaryCallOps, List.countP_cons, MetricOp.isStarted, MetricOp.isHandled]

/-- Witness for C8 at two interleaved calls: the operations of a successful
call and a failing call to the same method, interleaved, grow the
StartedCounter by exactly two. -/
theorem concurrent_calls_counted_witness :
    (applyOps
        { callType := .unary, service := "mwitkow.testproto.TestService",
          method := "PingEmpty" } NewClientMetrics
        [.started, .started, .handled "OK", .observeDuration,
         .handled "Unavailable", .observeDuration]).clientStartedCounter
      { callType := .unary, service := "mwitkow.testproto.TestService",
        method := "PingEmpty" } = 2 :=
  (concurrent_calls_counted 2
    { callType := .unary, service := "mwitkow.testproto.TestService",
      method := "PingEmpty" } NewClientMetrics
    [CallResult.callOk, CallResult.callError "Unavailable"] rfl
    [.started, .started, .handled "OK", .observeDuration,
     .handled "Unavailable", .observeDuration] (by decide)).1

/-- Claim C9: a server-streaming call in which the client sends exactly one
request message ends with StreamMsgSentCounter equal to 1 at the call's
labels — the single request goes through the wrapper's send path and is
counted, whatever the stream's receive outcomes are. -/
theorem server_stream_single_send_counted (evs : List RecvEvent) (lbl : CallLabels) :
    (afterStreamCall NewClientMetrics lbl [SendResult.sendOk]
        evs).clientStreamMsgSent lbl = 1 := by
  show (applyOps lbl NewClientMetrics
    (streamCallOps [SendResult.sendOk] evs)).clientStreamMsgSent lbl = 1
  rw [applyOps_msgSentCounter]
  show 0 + (streamCallOps [SendResult.sendOk] evs).countP MetricOp.isMsgSent = 1
  unfold streamCallOps
  rw [List.countP_cons, List.countP_append]
  rw [show runSends { doneObserving := false } [SendResult.sendOk] =
    ({ doneObserving := false }, [.msgSent]) from rfl]
  rw [msgSentCount_runRecvs]
  rfl

/-- Claim C10: the streaming entry point returns the wrapped stream handle
without error even for a call that will fail, incrementing StartedCounter at
establishment and leaving HandledCounter untouched at every status code; the
error, and the HandledCounter increment under its status code, surface only
when the caller performs a receive on the returned handle. -/
theorem stream_error_surfaces_on_recv (m : ClientMetrics) (lbl : CallLabels)
    (c : StatusCode) :
    (StreamClientInterceptor m lbl).1.clientStartedCounter lbl =
      m.clientStartedCounter lbl + 1 ∧
    (∀ code : StatusCode,
      (StreamClientInterceptor m lbl).1.clientHandledCounter lbl code =
        m.clientHandledCounter lbl code) ∧
    (StreamClientInterceptor m lbl).2 = { doneObserving := false } ∧
    (recvMsgStep (StreamClientInterceptor m lbl).2 (.recvError c)).2.2 =
      RecvEvent.recvError c ∧
    (applyOps lbl (StreamClientInterceptor m lbl).1
        (recvMsgStep (StreamClientInterceptor m lbl).2
          (.recvError c)).2.1).clientHandledCounter lbl c =
      m.clientHandledCounter lbl c + 1 := by
  refine ⟨?_, fun code => rfl, rfl, rfl, ?_⟩
  · simp [StreamClientInterceptor, incStarted]
  · rw [show (recvMsgStep (StreamClientInterceptor m lbl).2 (.recvError c)).2.1 =
      [.handled c, .observeDuration] from rfl]
    rw [applyOps_handledCounter]
    show m.clientHandledCounter lbl c +
      ([MetricOp.handled c, .observeDuration].countP (MetricOp.isHandledWith c)) =
      m.clientHandledCounter lbl c + 1
    simp [List.countP_cons, MetricOp.isHandledWith]
